import Mathlib

/-!
# Verification of the j1-blackjack-bot decision core

Shallow embedding, in Lean 4, of the decision core of the `j1-blackjack-bot`
repository: the Hi-Lo card counter (`src/counting/CardCounter.ts`), the
expected-value strategy engine (`src/strategy/OptimalStrategy.ts`) and the
adaptive learning subsystem (`src/learning/*.ts`).

JavaScript `number` values are modelled as rationals (`ℚ`), integer counters
as `ℕ`/`ℤ`, `Math.floor` as `Int.floor`, `Math.round` as `⌊x + 1/2⌋`
(round half toward +∞), and the `-Infinity` sentinel used for ineligible
actions as `⊥` in `WithBot ℚ`.  Fallible persistence calls are modelled with
`Except`.  The repository's `types.ts` is not part of the source drop; the
`Card`, `GameExperience`, `SessionResult` and profile record shapes below are
reconstructed from their uses in the sources and from the data-model section
of the design document.
-/

namespace Blackjack

/-- Card suits (value object; suits never influence any computation). -/
inductive Suit : Type
  | hearts | diamonds | clubs | spades
deriving DecidableEq, Repr

/-- Card ranks `2..10, J, Q, K, A`, as enumerated in the design document and
matched as strings throughout the sources. -/
inductive Rank : Type
  | r2 | r3 | r4 | r5 | r6 | r7 | r8 | r9 | r10 | J | Q | K | A
deriving DecidableEq, Repr

/-- A playing card: `{suit, rank}`. -/
structure Card : Type where
  suit : Suit
  rank : Rank
deriving DecidableEq, Repr

/-! ## CardCounter (`src/counting/CardCounter.ts`)

State fields `runningCount`, `cardsDealt`, `enabled`; `totalCards` is the
constant 416 (8 decks).  Configuration values `minBet`, `maxBet` and
`countThresholdBetIncrease` (defaults 25, 100, 2 in `src/config.ts`) are
passed explicitly. -/

/-- Mutable state of the `CardCounter` class. -/
structure CounterState : Type where
  runningCount : ℤ
  cardsDealt : ℕ
  enabled : Bool
deriving DecidableEq, Repr

/-- `totalCards = 416` — the fixed 8-deck shoe size. -/
def totalCards : ℕ := 416

/-- Betting configuration read from `src/config.ts`:
`minBet` (default 25), `maxBet` (default 100),
`countThresholdBetIncrease` (default 2). -/
structure BetConfig : Type where
  minBet : ℚ
  maxBet : ℚ
  countThresholdBetIncrease : ℚ
deriving DecidableEq, Repr

/-- The default betting configuration of `src/config.ts`. -/
def defaultBetConfig : BetConfig :=
  { minBet := 25, maxBet := 100, countThresholdBetIncrease := 2 }

/-- `CardCounter.updateCount(card)`: no-op when disabled; otherwise
increments `cardsDealt` and applies the Hi-Lo adjustment
(ranks 2–6: `+1`; ranks 10/J/Q/K/A: `−1`; ranks 7–9: unchanged). -/
def updateCount (st : CounterState) (card : Card) : CounterState :=
  if st.enabled = false then st
  else
    let st1 := { st with cardsDealt := st.cardsDealt + 1 }
    if card.rank ∈ [Rank.r2, Rank.r3, Rank.r4, Rank.r5, Rank.r6] then
      { st1 with runningCount := st1.runningCount + 1 }
    else if card.rank ∈ [Rank.r10, Rank.J, Rank.Q, Rank.K, Rank.A] then
      { st1 with runningCount := st1.runningCount - 1 }
    else st1

/-- `CardCounter.reset()`: clears `runningCount` and `cardsDealt`. -/
def resetCounter (st : CounterState) : CounterState :=
  { st with runningCount := 0, cardsDealt := 0 }

/-- The state right after construction / `reset()` with counting enabled. -/
def freshCounter : CounterState :=
  { runningCount := 0, cardsDealt := 0, enabled := true }

/-- JavaScript `Math.round` on a rational: round half toward `+∞`. -/
def jsRound (q : ℚ) : ℤ := ⌊q + 1 / 2⌋

/-- `CardCounter.getTrueCount()`: `runningCount / decksRemaining` with
`decksRemaining = (416 − cardsDealt)/52`, returning 0 when disabled or when
no decks remain, rounded to one decimal
(`Math.round(trueCount * 10) / 10`). -/
def getTrueCount (st : CounterState) : ℚ :=
  if st.enabled = false then 0
  else
    let cardsRemaining : ℚ := (totalCards : ℚ) - (st.cardsDealt : ℚ)
    let decksRemaining : ℚ := cardsRemaining / 52
    if decksRemaining ≤ 0 then 0
    else (jsRound ((st.runningCount : ℚ) / decksRemaining * 10) : ℚ) / 10

/-- Body of `CardCounter.getBet` once the true count has been computed:
the tiered betting ramp. -/
def getBetForTrueCount (cfg : BetConfig) (trueCount currentChips : ℚ) : ℚ :=
  let minBet := cfg.minBet
  let maxBet := min cfg.maxBet currentChips
  if trueCount ≥ 5 then maxBet
  else if trueCount ≥ 4 then min ((⌊maxBet * (8 / 10)⌋ : ℤ) : ℚ) currentChips
  else if trueCount ≥ 3 then min ((⌊maxBet * (6 / 10)⌋ : ℤ) : ℚ) currentChips
  else if trueCount ≥ cfg.countThresholdBetIncrease then
    min ((⌊maxBet * (4 / 10)⌋ : ℤ) : ℚ) currentChips
  else if trueCount ≤ -2 then minBet
  else minBet

/-- `CardCounter.getBet(currentChips)`: `config.minBet` when disabled,
otherwise the tiered ramp on the current true count. -/
def getBet (cfg : BetConfig) (st : CounterState) (currentChips : ℚ) : ℚ :=
  if st.enabled = false then cfg.minBet
  else getBetForTrueCount cfg (getTrueCount st) currentChips

/-- `CardCounter.getStrategyModifier()`: `trueCount * 0.02` clamped to
`[−0.1, 0.1]`; 0 when disabled. -/
def getStrategyModifier (st : CounterState) : ℚ :=
  if st.enabled = false then 0
  else max (-(1 / 10)) (min (1 / 10) (getTrueCount st * (2 / 100)))

/-- The Hi-Lo weight of a rank: 2–6 → `+1`, 10/J/Q/K/A → `−1`, 7–9 → `0`. -/
def hiLoWeight (r : Rank) : ℤ :=
  if r ∈ [Rank.r2, Rank.r3, Rank.r4, Rank.r5, Rank.r6] then 1
  else if r ∈ [Rank.r10, Rank.J, Rank.Q, Rank.K, Rank.A] then -1
  else 0

/-- Observe a whole sequence of cards, in order. -/
def observeAll (st : CounterState) (cards : List Card) : CounterState :=
  cards.foldl updateCount st

/-- A call against the counter's mutating interface: `updateCount` or
`reset`. -/
inductive CounterOp : Type
  | observe (card : Card)
  | reset
deriving DecidableEq, Repr

/-- Apply one interface call to the counter state. -/
def applyCounterOp (st : CounterState) : CounterOp → CounterState
  | .observe card => updateCount st card
  | .reset => resetCounter st

/-- Run a sequence of interface calls against the counter. -/
def runCounterOps (st : CounterState) (ops : List CounterOp) : CounterState :=
  ops.foldl applyCounterOp st

/-- Number of `observe` calls since the most recent `reset` in a call
sequence, starting from a counter that has already dealt `acc` cards. -/
def observesSinceResetFrom (acc : ℕ) (ops : List CounterOp) : ℕ :=
  ops.foldl
    (fun n op => match op with | .observe _ => n + 1 | .reset => 0) acc

/-- Number of `observe` calls since the most recent `reset` (or since the
start, if no `reset` occurs). -/
def observesSinceReset (ops : List CounterOp) : ℕ :=
  observesSinceResetFrom 0 ops

lemma updateCount_enabled (st : CounterState) (card : Card) :
    (updateCount st card).enabled = st.enabled := by
  unfold updateCount
  split_ifs <;> rfl

lemma updateCount_of_enabled (st : CounterState) (card : Card)
    (h : st.enabled = true) :
    (updateCount st card).runningCount
        = st.runningCount + hiLoWeight card.rank
      ∧ (updateCount st card).cardsDealt = st.cardsDealt + 1 := by
  cases hr : card.rank <;>
    simp [updateCount, hiLoWeight, h, hr, sub_eq_add_neg]

lemma observeAll_runningCount (cards : List Card) :
    ∀ st : CounterState, st.enabled = true →
      (observeAll st cards).runningCount
        = st.runningCount + (cards.map (fun c => hiLoWeight c.rank)).sum := by
  induction cards with
  | nil => intro st _; simp [observeAll]
  | cons c rest ih =>
    intro st h
    have hstep := updateCount_of_enabled st c h
    have hen : (updateCount st c).enabled = true := by
      rw [updateCount_enabled]; exact h
    have : observeAll st (c :: rest) = observeAll (updateCount st c) rest := rfl
    rw [this, ih _ hen, hstep.1]
    simp [add_assoc]

lemma observeAll_cardsDealt (cards : List Card) :
    ∀ st : CounterState, st.enabled = true →
      (observeAll st cards).cardsDealt = st.cardsDealt + cards.length := by
  induction cards with
  | nil => intro st _; simp [observeAll]
  | cons c rest ih =>
    intro st h
    have hstep := updateCount_of_enabled st c h
    have hen : (updateCount st c).enabled = true := by
      rw [updateCount_enabled]; exact h
    have : observeAll st (c :: rest) = observeAll (updateCount st c) rest := rfl
    rw [this, ih _ hen, hstep.2]
    simp [Nat.add_assoc, Nat.add_comm 1]

/-- C2: with counting enabled, after observing any card sequence from the
reset state the running count is the sum of the Hi-Lo weights of the observed
ranks (2–6 → `+1`, 7–9 → `0`, 10/J/Q/K/A → `−1`); the result is invariant
under reordering the observed multiset; and `observe` is a no-op when
counting is disabled. -/
theorem runningCount_eq_hiLo_sum :
    (∀ cards : List Card,
        (observeAll freshCounter cards).runningCount
          = (cards.map (fun c => hiLoWeight c.rank)).sum)
    ∧ (∀ cards1 cards2 : List Card, cards1.Perm cards2 →
        (observeAll freshCounter cards1).runningCount
          = (observeAll freshCounter cards2).runningCount)
    ∧ (∀ (st : CounterState) (card : Card), st.enabled = false →
        updateCount st card = st) := by
  have hsum : ∀ cards : List Card,
      (observeAll freshCounter cards).runningCount
        = (cards.map (fun c => hiLoWeight c.rank)).sum := by
    intro cards
    have := observeAll_runningCount cards freshCounter rfl
    simpa [freshCounter] using this
  refine ⟨hsum, ?_, ?_⟩
  · intro cards1 cards2 hperm
    rw [hsum, hsum]
    exact List.Perm.sum_eq (hperm.map _)
  · intro st card h
    unfold updateCount
    simp [h]

/-- Witness for `runningCount_eq_hiLo_sum` at concrete inputs: the sequence
2♥, A♠ counts to 0, reordering it gives the same count, and a disabled
counter ignores a 5♣. -/
theorem runningCount_eq_hiLo_sum_witness :
    ((observeAll freshCounter
        ([⟨Suit.hearts, Rank.r2⟩, ⟨Suit.spades, Rank.A⟩] : List Card)).runningCount
      = (([⟨Suit.hearts, Rank.r2⟩, ⟨Suit.spades, Rank.A⟩] : List Card).map
          (fun c => hiLoWeight c.rank)).sum)
    ∧ ((observeAll freshCounter
          ([⟨Suit.hearts, Rank.r2⟩, ⟨Suit.spades, Rank.A⟩] : List Card)).runningCount
        = (observeAll freshCounter
            ([⟨Suit.spades, Rank.A⟩, ⟨Suit.hearts, Rank.r2⟩] : List Card)).runningCount)
    ∧ updateCount ⟨3, 7, false⟩ ⟨Suit.clubs, Rank.r5⟩ = ⟨3, 7, false⟩ :=
  ⟨runningCount_eq_hiLo_sum.1 _,
   runningCount_eq_hiLo_sum.2.1 _ _ (by decide),
   runningCount_eq_hiLo_sum.2.2 ⟨3, 7, false⟩ ⟨Suit.clubs, Rank.r5⟩ rfl⟩

lemma applyCounterOp_enabled (st : CounterState) (op : CounterOp) :
    (applyCounterOp st op).enabled = st.enabled := by
  cases op with
  | observe card => exact updateCount_enabled st card
  | reset => rfl

lemma runCounterOps_cardsDealt (ops : List CounterOp) :
    ∀ st : CounterState, st.enabled = true →
      (runCounterOps st ops).cardsDealt
        = observesSinceResetFrom st.cardsDealt ops := by
  induction ops with
  | nil => intro st _; rfl
  | cons op rest ih =>
    intro st h
    have hen : (applyCounterOp st op).enabled = true := by
      rw [applyCounterOp_enabled]; exact h
    have hrun : runCounterOps st (op :: rest)
        = runCounterOps (applyCounterOp st op) rest := rfl
    rw [hrun, ih _ hen]
    cases op with
    | observe card =>
      have := (updateCount_of_enabled st card h).2
      simp [applyCounterOp, observesSinceResetFrom, this]
    | reset =>
      simp [applyCounterOp, resetCounter, observesSinceResetFrom]

/-- C8 counterexample: observing 417 cards (one more than the shoe holds)
from the reset state drives `cardsDealt` to 417 — `updateCount` never clamps
`cardsDealt` at `totalCards = 416`, so the claimed invariant
`cardsDealt ≤ totalCards` fails on this reachable state. -/
theorem cardsDealt_can_exceed_shoe :
    (observeAll freshCounter
        (List.replicate 417 (⟨Suit.hearts, Rank.r7⟩ : Card))).cardsDealt = 417
    ∧ ¬ (observeAll freshCounter
        (List.replicate 417 (⟨Suit.hearts, Rank.r7⟩ : Card))).cardsDealt
          ≤ totalCards := by
  have h := observeAll_cardsDealt
    (List.replicate 417 (⟨Suit.hearts, Rank.r7⟩ : Card)) freshCounter rfl
  rw [List.length_replicate] at h
  have h417 : (observeAll freshCounter
      (List.replicate 417 (⟨Suit.hearts, Rank.r7⟩ : Card))).cardsDealt = 417 := by
    rw [h]; rfl
  exact ⟨h417, by rw [h417]; decide⟩

/-- C8 amended: in every state reachable from the reset state by `observe`
and `reset` calls, `cardsDealt` equals the number of cards observed since the
most recent reset (so `0 ≤ cardsDealt` always); the upper bound
`cardsDealt ≤ totalCards` holds exactly when at most 416 cards are observed
per shoe — the code itself does not enforce it. -/
theorem cardsDealt_eq_observes_since_reset (ops : List CounterOp) :
    (runCounterOps freshCounter ops).cardsDealt = observesSinceReset ops
    ∧ (observesSinceReset ops ≤ totalCards →
        (runCounterOps freshCounter ops).cardsDealt ≤ totalCards) := by
  have h := runCounterOps_cardsDealt ops freshCounter rfl
  have heq : (runCounterOps freshCounter ops).cardsDealt
      = observesSinceReset ops := by
    rw [h]; rfl
  exact ⟨heq, fun hb => heq ▸ hb⟩

/-- Witness for `cardsDealt_eq_observes_since_reset`: two observes and a
reset followed by one observe leave `cardsDealt = 1 ≤ 416`. -/
theorem cardsDealt_eq_observes_since_reset_witness :
    (runCounterOps freshCounter
        [CounterOp.observe ⟨Suit.hearts, Rank.r9⟩,
         CounterOp.observe ⟨Suit.clubs, Rank.K⟩,
         CounterOp.reset,
         CounterOp.observe ⟨Suit.spades, Rank.r2⟩]).cardsDealt
      = observesSinceReset
          [CounterOp.observe ⟨Suit.hearts, Rank.r9⟩,
           CounterOp.observe ⟨Suit.clubs, Rank.K⟩,
           CounterOp.reset,
           CounterOp.observe ⟨Suit.spades, Rank.r2⟩]
    ∧ (runCounterOps freshCounter
        [CounterOp.observe ⟨Suit.hearts, Rank.r9⟩,
         CounterOp.observe ⟨Suit.clubs, Rank.K⟩,
         CounterOp.reset,
         CounterOp.observe ⟨Suit.spades, Rank.r2⟩]).cardsDealt ≤ totalCards :=
  ⟨(cardsDealt_eq_observes_since_reset _).1,
   (cardsDealt_eq_observes_since_reset _).2 (by decide)⟩

/-- C3 counterexample: with the default configuration
(`minBet = 25`, `maxBet = 100`, threshold 2) and a chip stack of 30, a
counter at true count 0 gets the table minimum 25 while a counter at true
count 2 gets `min(⌊min(100,30)·0.4⌋, 30) = 12 < 25`: `getBet` is not
non-decreasing in the true count for every chip stack. -/
theorem getBet_not_monotone :
    getTrueCount ⟨0, 0, true⟩ ≤ getTrueCount ⟨16, 0, true⟩
    ∧ getBet defaultBetConfig ⟨16, 0, true⟩ 30
        < getBet defaultBetConfig ⟨0, 0, true⟩ 30 := by
  refine ⟨?_, ?_⟩ <;>
    norm_num [getBet, getBetForTrueCount, getTrueCount, jsRound,
      defaultBetConfig, totalCards]

set_option maxHeartbeats 1600000 in
lemma getBetForTrueCount_mono (cfg : BetConfig) (chips t1 t2 : ℚ)
    (hm : 0 ≤ min cfg.maxBet chips)
    (hmin : cfg.minBet ≤ ((⌊min cfg.maxBet chips * (4 / 10)⌋ : ℤ) : ℚ))
    (hle : t1 ≤ t2) :
    getBetForTrueCount cfg t1 chips ≤ getBetForTrueCount cfg t2 chips := by
  simp only [getBetForTrueCount]
  set m := min cfg.maxBet chips with hmdef
  have hmchips : m ≤ chips := min_le_right _ _
  have h46 : ((⌊m * (4 / 10)⌋ : ℤ) : ℚ) ≤ ((⌊m * (6 / 10)⌋ : ℤ) : ℚ) := by
    exact_mod_cast Int.floor_le_floor (by linarith)
  have h68 : ((⌊m * (6 / 10)⌋ : ℤ) : ℚ) ≤ ((⌊m * (8 / 10)⌋ : ℤ) : ℚ) := by
    exact_mod_cast Int.floor_le_floor (by linarith)
  have h8m : ((⌊m * (8 / 10)⌋ : ℤ) : ℚ) ≤ m :=
    le_trans (Int.floor_le _) (by linarith)
  have hminchips : cfg.minBet ≤ chips :=
    le_trans hmin (le_trans (le_trans (Int.floor_le _) (by linarith)) hmchips)
  have hb2 : cfg.minBet ≤ min ((⌊m * (4 / 10)⌋ : ℤ) : ℚ) chips :=
    le_min hmin hminchips
  have hb23 : min ((⌊m * (4 / 10)⌋ : ℤ) : ℚ) chips
      ≤ min ((⌊m * (6 / 10)⌋ : ℤ) : ℚ) chips := min_le_min h46 le_rfl
  have hb34 : min ((⌊m * (6 / 10)⌋ : ℤ) : ℚ) chips
      ≤ min ((⌊m * (8 / 10)⌋ : ℤ) : ℚ) chips := min_le_min h68 le_rfl
  have hb4m : min ((⌊m * (8 / 10)⌋ : ℤ) : ℚ) chips ≤ m :=
    le_trans (min_le_left _ _) h8m
  split_ifs <;> linarith [hb2, hb23, hb34, hb4m]

/-- C3 amended: for a fixed chip stack and configuration with counting
enabled, `getBet` is non-decreasing in the true count *provided* the table
minimum does not exceed the lowest escalation tier,
`minBet ≤ ⌊0.4 · min(maxBet, chips)⌋` (and `min(maxBet, chips) ≥ 0`); for
stacks or configurations violating that proviso the ramp dips below the
minimum-bet fallback and monotonicity fails (see `getBet_not_monotone`). -/
theorem getBet_monotone_in_trueCount (cfg : BetConfig) (chips : ℚ)
    (s1 s2 : CounterState) (h1 : s1.enabled = true) (h2 : s2.enabled = true)
    (hm : 0 ≤ min cfg.maxBet chips)
    (hmin : cfg.minBet ≤ ((⌊min cfg.maxBet chips * (4 / 10)⌋ : ℤ) : ℚ))
    (hle : getTrueCount s1 ≤ getTrueCount s2) :
    getBet cfg s1 chips ≤ getBet cfg s2 chips := by
  unfold getBet
  rw [h1, h2]
  simp only [Bool.true_eq_false, if_false]
  exact getBetForTrueCount_mono cfg chips _ _ hm hmin hle

/-- Witness for `getBet_monotone_in_trueCount`: default configuration,
100 chips, true counts 0 and 2. -/
theorem getBet_monotone_in_trueCount_witness :
    getBet defaultBetConfig ⟨0, 0, true⟩ 100
      ≤ getBet defaultBetConfig ⟨16, 0, true⟩ 100 :=
  getBet_monotone_in_trueCount defaultBetConfig 100 ⟨0, 0, true⟩ ⟨16, 0, true⟩
    rfl rfl
    (by norm_num [defaultBetConfig])
    (by norm_num [defaultBetConfig])
    (by norm_num [getTrueCount, jsRound, totalCards])

/-! ## OptimalStrategy (`src/strategy/OptimalStrategy.ts`)

EV computation per action and best-action selection.  Ineligible actions
carry `-Infinity`, modelled as `⊥ : WithBot ℚ`. -/

/-- The four possible actions of a `BotDecision`. -/
inductive Action : Type
  | stand | hit | double | split
deriving DecidableEq, Repr

/-- `getRankValue(rank)`: A → 11, K/Q/J → 10, numeric ranks → their value. -/
def getRankValue : Rank → ℤ
  | .A => 11
  | .K => 10
  | .Q => 10
  | .J => 10
  | .r10 => 10
  | .r9 => 9
  | .r8 => 8
  | .r7 => 7
  | .r6 => 6
  | .r5 => 5
  | .r4 => 4
  | .r3 => 3
  | .r2 => 2

/-- One row of the dealer final-hand distribution table: probabilities of
the dealer finishing on 17–21 or busting. -/
structure DealerDist : Type where
  p17 : ℚ
  p18 : ℚ
  p19 : ℚ
  p20 : ℚ
  p21 : ℚ
  bust : ℚ
deriving DecidableEq, Repr

/-- `getDealerFinalDistribution(dealerUpcard)`: the fixed per-upcard table;
an out-of-range upcard falls back to the 10-upcard row
(`distributions[dealerUpcard] || distributions[10]`). -/
def getDealerFinalDistribution (u : ℤ) : DealerDist :=
  if u = 2 then ⟨0.1389, 0.1311, 0.1310, 0.1176, 0.0775, 0.3539⟩
  else if u = 3 then ⟨0.1299, 0.1299, 0.1299, 0.1164, 0.0693, 0.3745⟩
  else if u = 4 then ⟨0.1199, 0.1199, 0.1199, 0.1152, 0.1050, 0.4002⟩
  else if u = 5 then ⟨0.1199, 0.1169, 0.1169, 0.1070, 0.1111, 0.4282⟩
  else if u = 6 then ⟨0.1654, 0.1061, 0.1061, 0.1061, 0.0958, 0.4205⟩
  else if u = 7 then ⟨0.3691, 0.1378, 0.0790, 0.0790, 0.0732, 0.2619⟩
  else if u = 8 then ⟨0.1289, 0.3594, 0.1289, 0.0727, 0.0718, 0.2383⟩
  else if u = 9 then ⟨0.1189, 0.1060, 0.3481, 0.1189, 0.0780, 0.2301⟩
  else if u = 10 then ⟨0.1102, 0.1102, 0.1102, 0.3438, 0.1127, 0.2129⟩
  else if u = 11 then ⟨0.1304, 0.1304, 0.1304, 0.3045, 0.1865, 0.1178⟩
  else ⟨0.1102, 0.1102, 0.1102, 0.3438, 0.1127, 0.2129⟩

/-- One term of the stand-EV loop: `prob · (+1 | 0 | −1)` according to
whether the dealer total loses to, pushes with, or beats the player total. -/
def standOutcome (playerTotal dealerTotal : ℤ) (prob : ℚ) : ℚ :=
  if dealerTotal < playerTotal then prob * 1
  else if dealerTotal = playerTotal then prob * 0
  else prob * (-1)

/-- `calculateStandEV(playerTotal, dealerUpcard)`: `−1` on a bust; the bare
dealer-bust probability on a player 21; otherwise the expectation over the
dealer's final-hand distribution. -/
def calculateStandEV (playerTotal dealerUpcard : ℤ) : ℚ :=
  if playerTotal > 21 then -1
  else if playerTotal = 21 then (getDealerFinalDistribution dealerUpcard).bust
  else
    let d := getDealerFinalDistribution dealerUpcard
    d.bust * 1
      + standOutcome playerTotal 17 d.p17
      + standOutcome playerTotal 18 d.p18
      + standOutcome playerTotal 19 d.p19
      + standOutcome playerTotal 20 d.p20
      + standOutcome playerTotal 21 d.p21

/-- The hand update inside the hit-EV loop when a card of value `cardValue`
(1 for an ace) is drawn: the ace promotes to 11 when it fits, and a soft
hand that overflows 21 demotes an ace by 10. -/
def drawCard (playerTotal : ℤ) (isSoft : Bool) (cardValue : ℤ) : ℤ × Bool :=
  let res : ℤ × Bool :=
    if cardValue = 1 then
      if playerTotal + 11 ≤ 21 then (playerTotal + 11, true)
      else (playerTotal + 1, isSoft)
    else (playerTotal + cardValue, isSoft)
  if res.2 = true ∧ res.1 > 21 then (res.1 - 10, false) else res

/-- `calculateHitEV(playerTotal, dealerUpcard, isSoft, depth)`: `−1` past 21;
the stand EV once `depth > 5`; otherwise the expectation over the fixed
8-deck next-card distribution (ranks 2–9 at 32/416, the ten-group at
128/416, the ace at 32/416), taking `max(standEV, hitEV at depth+1)` on each
non-terminal branch. -/
def calculateHitEV (playerTotal dealerUpcard : ℤ) (isSoft : Bool)
    (depth : ℕ) : ℚ :=
  if playerTotal > 21 then -1
  else if _h : depth > 5 then calculateStandEV playerTotal dealerUpcard
  else
    let contrib : ℤ → ℚ → ℚ := fun cardValue prob =>
      let nh := drawCard playerTotal isSoft cardValue
      prob *
        (if nh.1 > 21 then -1
         else if nh.1 = 21 then calculateStandEV 21 dealerUpcard
         else max (calculateStandEV nh.1 dealerUpcard)
              (calculateHitEV nh.1 dealerUpcard nh.2 (depth + 1)))
    contrib 1 (32 / 416) + contrib 2 (32 / 416) + contrib 3 (32 / 416)
      + contrib 4 (32 / 416) + contrib 5 (32 / 416) + contrib 6 (32 / 416)
      + contrib 7 (32 / 416) + contrib 8 (32 / 416) + contrib 9 (32 / 416)
      + contrib 10 (128 / 416)
termination_by 6 - depth
decreasing_by all_goals { simp_wf; omega }

/-- `calculateDoubleEV(playerTotal, dealerUpcard, isSoft)`: one forced card,
then twice the stand EV, in expectation over the next-card distribution. -/
def calculateDoubleEV (playerTotal dealerUpcard : ℤ) (isSoft : Bool) : ℚ :=
  let contrib : ℤ → ℚ → ℚ := fun cardValue prob =>
    let newTotal :=
      if cardValue = 1 then
        if playerTotal + 11 ≤ 21 then playerTotal + 11 else playerTotal + 1
      else playerTotal + cardValue
    let newTotal2 :=
      if isSoft = true ∧ newTotal > 21 then newTotal - 10 else newTotal
    prob * calculateStandEV newTotal2 dealerUpcard * 2
  contrib 1 (32 / 416) + contrib 2 (32 / 416) + contrib 3 (32 / 416)
    + contrib 4 (32 / 416) + contrib 5 (32 / 416) + contrib 6 (32 / 416)
    + contrib 7 (32 / 416) + contrib 8 (32 / 416) + contrib 9 (32 / 416)
    + contrib 10 (128 / 416)

/-- `calculateSplitEV(pairRank, dealerUpcard)`: split Aces receive one card
per hand (twice the expected 11-plus-card stand EV); any other pair is
approximated as twice a single hit-EV computation from the pair card's
value. -/
def calculateSplitEV (pairRank : Rank) (dealerUpcard : ℤ) : ℚ :=
  if pairRank = Rank.A then
    let contrib : ℤ → ℚ → ℚ := fun cardValue prob =>
      let total := if 11 + cardValue > 21 then 1 + cardValue else 11 + cardValue
      prob * calculateStandEV total dealerUpcard
    (contrib 1 (32 / 416) + contrib 2 (32 / 416) + contrib 3 (32 / 416)
      + contrib 4 (32 / 416) + contrib 5 (32 / 416) + contrib 6 (32 / 416)
      + contrib 7 (32 / 416) + contrib 8 (32 / 416) + contrib 9 (32 / 416)
      + contrib 10 (128 / 416)) * 2
  else calculateHitEV (getRankValue pairRank) dealerUpcard false 0 * 2

/-- The non-recursive one-level hit expectation: each drawn card is settled
with the stand EV instead of a deeper hit expansion.  `calculateHitEV` at
`depth = 5` must coincide with this. -/
def hitEVOneLevel (playerTotal dealerUpcard : ℤ) (isSoft : Bool) : ℚ :=
  if playerTotal > 21 then -1
  else
    let contrib : ℤ → ℚ → ℚ := fun cardValue prob =>
      let nh := drawCard playerTotal isSoft cardValue
      prob *
        (if nh.1 > 21 then -1
         else if nh.1 = 21 then calculateStandEV 21 dealerUpcard
         else calculateStandEV nh.1 dealerUpcard)
    contrib 1 (32 / 416) + contrib 2 (32 / 416) + contrib 3 (32 / 416)
      + contrib 4 (32 / 416) + contrib 5 (32 / 416) + contrib 6 (32 / 416)
      + contrib 7 (32 / 416) + contrib 8 (32 / 416) + contrib 9 (32 / 416)
      + contrib 10 (128 / 416)

lemma calculateHitEV_depth6 (playerTotal dealerUpcard : ℤ) (isSoft : Bool)
    (h : playerTotal ≤ 21) :
    calculateHitEV playerTotal dealerUpcard isSoft 6
      = calculateStandEV playerTotal dealerUpcard := by
  rw [calculateHitEV]
  simp [not_lt.mpr h]

lemma hit_branch_depth5 (dealerUpcard n : ℤ) (s : Bool) :
    (if n > 21 then (-1 : ℚ)
     else if n = 21 then calculateStandEV 21 dealerUpcard
     else max (calculateStandEV n dealerUpcard)
          (calculateHitEV n dealerUpcard s (5 + 1)))
    = (if n > 21 then (-1 : ℚ)
       else if n = 21 then calculateStandEV 21 dealerUpcard
       else calculateStandEV n dealerUpcard) := by
  split_ifs with h1 h2
  · rfl
  · rfl
  · rw [show (5 + 1 : ℕ) = 6 from rfl,
      calculateHitEV_depth6 n dealerUpcard s (not_lt.mp h1)]
    exact max_self _

/-- C1: for any player total ≤ 21 and any dealer upcard, `calculateHitEV` at
`depth = 5` performs exactly one level of expansion over the next-card
distribution — every inner recursive call is at `depth = 6` and immediately
falls back to the stand EV — so it equals the non-recursive
`hitEVOneLevel`; and at any depth beyond the bound the function returns the
stand EV outright. -/
theorem calculateHitEV_depth5_one_level (playerTotal dealerUpcard : ℤ)
    (isSoft : Bool) (h : playerTotal ≤ 21) :
    calculateHitEV playerTotal dealerUpcard isSoft 5
      = hitEVOneLevel playerTotal dealerUpcard isSoft
    ∧ calculateHitEV playerTotal dealerUpcard isSoft 6
      = calculateStandEV playerTotal dealerUpcard := by
  refine ⟨?_, calculateHitEV_depth6 playerTotal dealerUpcard isSoft h⟩
  rw [calculateHitEV, hitEVOneLevel]
  simp only [not_lt.mpr h, if_neg (by omega : ¬ playerTotal > 21)]
  norm_num [hit_branch_depth5]

/-- Witness for `calculateHitEV_depth5_one_level` at the concrete situation
hard 16 vs dealer upcard 10. -/
theorem calculateHitEV_depth5_one_level_witness :
    calculateHitEV 16 10 false 5 = hitEVOneLevel 16 10 false
    ∧ calculateHitEV 16 10 false 6 = calculateStandEV 16 10 :=
  calculateHitEV_depth5_one_level 16 10 false (by norm_num)

/-- The `GameSituation` snapshot consumed by `getDecision` (the fields the
strategy engine reads). -/
structure GameSituation : Type where
  playerHand : List Card
  playerTotal : ℤ
  isSoft : Bool
  dealerUpcard : Card
  chipStack : ℚ
  canDouble : Bool
  canSplit : Bool
deriving DecidableEq, Repr

/-- The `BotDecision` result value.  `expectedValue` is the winning entry of
the EV array, in which ineligible actions carry `-Infinity` (`⊥`);
`betSize` is the card counter's recommendation. -/
structure BotDecision : Type where
  action : Action
  confidence : ℚ
  expectedValue : WithBot ℚ
  betSize : Option ℚ
deriving DecidableEq, Repr

/-- `splitEligible` mirrors the guard
`canSplit && playerHand.length === 2 &&
 playerHand[0].rank === playerHand[1].rank`. -/
def splitEligible (situation : GameSituation) : Bool :=
  situation.canSplit &&
    (match situation.playerHand with
     | [c1, c2] => decide (c1.rank = c2.rank)
     | _ => false)

/-- The four `(action, ev)` entries of `getDecision`, in declaration order,
after the learning adjustment and the asymmetric count modifier have been
applied.  Ineligible double/split carry `⊥` (`-Infinity`), which absorbs
the additive adjustments exactly as `-Infinity` does in JavaScript. -/
def adjustedActionEVs (st : CounterState) (situation : GameSituation)
    (learningAdjustment : ℚ) : List (Action × WithBot ℚ) :=
  let upcard := getRankValue situation.dealerUpcard.rank
  let standEV : WithBot ℚ :=
    ((calculateStandEV situation.playerTotal upcard : ℚ) : WithBot ℚ)
  let hitEV : WithBot ℚ :=
    ((calculateHitEV situation.playerTotal upcard situation.isSoft 0 : ℚ) :
      WithBot ℚ)
  let doubleEV : WithBot ℚ :=
    if situation.canDouble = true then
      ((calculateDoubleEV situation.playerTotal upcard situation.isSoft : ℚ) :
        WithBot ℚ)
    else ⊥
  let splitEV : WithBot ℚ :=
    if splitEligible situation = true then
      ((calculateSplitEV (situation.playerHand.headD situation.dealerUpcard
          |>.rank) upcard : ℚ) : WithBot ℚ)
    else ⊥
  let countModifier := getStrategyModifier st
  [(Action.stand, standEV + (learningAdjustment : WithBot ℚ)
      + (if countModifier > 0 then ((countModifier : ℚ) : WithBot ℚ) else 0)),
   (Action.hit, hitEV + (learningAdjustment : WithBot ℚ)
      + (if countModifier < 0 then ((|countModifier| * (5 / 10) : ℚ) : WithBot ℚ)
         else 0)),
   (Action.double, doubleEV + (learningAdjustment : WithBot ℚ)),
   (Action.split, splitEV + (learningAdjustment : WithBot ℚ))]

/-- The comparator of `actions.sort((a, b) => b.ev - a.ev)`: descending by
EV.  JavaScript's sort is stable, and on two `-Infinity` entries the
comparator returns `NaN`, which the ECMAScript `SortCompare` treats as `+0`
(equal) — so a stable descending sort is the exact model. -/
def evDescending (a b : Action × WithBot ℚ) : Prop := b.2 ≤ a.2

instance : DecidableRel evDescending := fun a b =>
  inferInstanceAs (Decidable (b.2 ≤ a.2))

/-- `confidence = Math.min(1, Math.max(0, (best − second) / 0.5))`.  A `⊥`
(`-Infinity`) second-best makes the gap `+∞`, which clamps to 1.  A `⊥`
best would give `NaN` in JavaScript; it is unreachable (the stand EV is
always finite) and modelled as 0. -/
def confidenceOf : WithBot ℚ → WithBot ℚ → ℚ
  | some best, some second => min 1 (max 0 ((best - second) / (5 / 10)))
  | some _, ⊥ => 1
  | ⊥, _ => 0

/-- `OptimalStrategy.getDecision(situation, learningAdjustment)`: sorts the
four adjusted action EVs descending (stably) and returns the front-runner,
the confidence derived from the gap to the runner-up, and the counter's
recommended bet. -/
def getDecision (cfg : BetConfig) (st : CounterState)
    (situation : GameSituation) (learningAdjustment : ℚ) : BotDecision :=
  let actions := adjustedActionEVs st situation learningAdjustment
  let sorted := actions.insertionSort evDescending
  let bestAction := sorted.headD (Action.stand, ⊥)
  let secondBestEV := (sorted.getD 1 (Action.stand, ⊥)).2
  { action := bestAction.1
    confidence := confidenceOf bestAction.2 secondBestEV
    expectedValue := bestAction.2
    betSize := some (getBet cfg st situation.chipStack) }

lemma splitEligible_iff (s : GameSituation) :
    splitEligible s = true ↔
      s.canSplit = true
        ∧ ∃ c1 c2, s.playerHand = [c1, c2] ∧ c1.rank = c2.rank := by
  unfold splitEligible
  rcases hpl : s.playerHand with _ | ⟨c1, _ | ⟨c2, _ | ⟨c3, rest⟩⟩⟩ <;>
    simp [hpl]
  refine fun _ => ⟨fun h => ⟨c1, c2, ⟨rfl, rfl⟩, h⟩, ?_⟩
  rintro ⟨a, b, ⟨rfl, rfl⟩, h3⟩
  exact h3

lemma sorted_head_ne_double (vs vh vd vsp : WithBot ℚ) (hd : vd = ⊥) :
    ((List.insertionSort evDescending
        [(Action.stand, vs), (Action.hit, vh), (Action.double, vd),
         (Action.split, vsp)]).headD (Action.stand, ⊥)).1 ≠ Action.double := by
  subst hd
  simp only [List.insertionSort, List.orderedInsert, evDescending, bot_le,
    if_true]
  split_ifs <;>
    simp_all [List.orderedInsert, evDescending, le_bot_iff]
  all_goals
    (split_ifs <;> simp_all [List.orderedInsert, evDescending, le_bot_iff])
  all_goals
    (split_ifs <;> simp_all [List.orderedInsert, evDescending, le_bot_iff])

lemma sorted_head_ne_split (vs vh vd vsp : WithBot ℚ) (hsp : vsp = ⊥) :
    ((List.insertionSort evDescending
        [(Action.stand, vs), (Action.hit, vh), (Action.double, vd),
         (Action.split, vsp)]).headD (Action.stand, ⊥)).1 ≠ Action.split := by
  subst hsp
  simp only [List.insertionSort, List.orderedInsert, evDescending, bot_le,
    if_true]
  split_ifs <;>
    simp_all [List.orderedInsert, evDescending, le_bot_iff]
  all_goals
    (split_ifs <;> simp_all [List.orderedInsert, evDescending, le_bot_iff])

/-- C10: `getDecision` never returns `double` when the situation's
`canDouble` flag is false, and never returns `split` unless `canSplit`
holds and the hand is exactly two cards of equal rank — the `-Infinity`
(`⊥`) EV of an ineligible action can never win the descending sort, because
the stand entry is always finite. -/
theorem getDecision_eligible_actions (cfg : BetConfig) (st : CounterState)
    (situation : GameSituation) (learningAdjustment : ℚ) :
    (situation.canDouble = false →
       (getDecision cfg st situation learningAdjustment).action
         ≠ Action.double)
    ∧ (¬ (situation.canSplit = true
          ∧ ∃ c1 c2, situation.playerHand = [c1, c2] ∧ c1.rank = c2.rank) →
       (getDecision cfg st situation learningAdjustment).action
         ≠ Action.split) := by
  constructor
  · intro hcd
    simp only [getDecision, adjustedActionEVs, hcd, Bool.false_eq_true,
      if_false, WithBot.bot_add]
    exact sorted_head_ne_double _ _ _ _ rfl
  · intro hsp
    have hse : splitEligible situation = false := by
      rw [Bool.eq_false_iff]
      intro h
      exact hsp ((splitEligible_iff situation).mp h)
    simp only [getDecision, adjustedActionEVs, hse, Bool.false_eq_true,
      if_false, WithBot.bot_add]
    exact sorted_head_ne_split _ _ _ _ rfl

/-- Witness for `getDecision_eligible_actions`: hard 15 (8♥ 7♠) vs a 10,
with doubling and splitting unavailable. -/
theorem getDecision_eligible_actions_witness :
    (getDecision defaultBetConfig freshCounter
        ⟨[⟨Suit.hearts, Rank.r8⟩, ⟨Suit.spades, Rank.r7⟩], 15, false,
          ⟨Suit.diamonds, Rank.r10⟩, 100, false, false⟩ 0).action
      ≠ Action.double
    ∧ (getDecision defaultBetConfig freshCounter
        ⟨[⟨Suit.hearts, Rank.r8⟩, ⟨Suit.spades, Rank.r7⟩], 15, false,
          ⟨Suit.diamonds, Rank.r10⟩, 100, false, false⟩ 0).action
      ≠ Action.split :=
  ⟨(getDecision_eligible_actions defaultBetConfig freshCounter _ 0).1 rfl,
   (getDecision_eligible_actions defaultBetConfig freshCounter _ 0).2
     (by simp)⟩

/-! ## ExperienceTracker (`src/learning/ExperienceTracker.ts`)

Bounded rolling stores of hand and session records, and the per-situation
learned EV adjustment. -/

/-- One fully resolved hand (`GameExperience`); the fields read by the
tracker. -/
structure GameExperience : Type where
  sessionId : String
  handNumber : ℕ
  playerTotal : ℤ
  dealerUpcard : Card
  actionTaken : String
  betSize : ℚ
  handResult : String
  chipsWon : ℚ
deriving DecidableEq, Repr

/-- Per-opponent per-session aggregated behaviour (`OpponentSessionData`). -/
structure OpponentSessionData : Type where
  walletAddress : String
  finalRank : ℤ
  finalChips : ℚ
  avgBetSize : ℚ
  totalHits : ℕ
  totalStands : ℕ
  totalDoubles : ℕ
  totalSplits : ℕ
deriving DecidableEq, Repr

/-- One completed session (`SessionResult`); the fields read by the
learning subsystem. -/
structure SessionResult : Type where
  sessionId : String
  finalRank : ℤ
  totalPlayers : ℕ
  finalChips : ℚ
  handsWon : ℕ
  handsPlayed : ℕ
  netProfit : ℚ
  payout : ℚ
  opponents : List OpponentSessionData
deriving DecidableEq, Repr

/-- The `ExperienceTracker`'s two bounded buffers. -/
structure TrackerState : Type where
  experiences : List GameExperience
  sessions : List SessionResult
deriving DecidableEq, Repr

/-- `maxExperiences = 1000`. -/
def maxExperiences : ℕ := 1000

/-- `maxSessions = 100`. -/
def maxSessions : ℕ := 100

/-- `ExperienceTracker.recordHand`: push, then drop the oldest entry when
the buffer exceeds `maxExperiences`. -/
def ExperienceTracker.recordHand (tr : TrackerState)
    (experience : GameExperience) : TrackerState :=
  let exps := tr.experiences ++ [experience]
  { tr with experiences := if exps.length > maxExperiences then exps.tail
      else exps }

/-- `ExperienceTracker.recordSession`: push, then drop the oldest entry when
the buffer exceeds `maxSessions`. -/
def ExperienceTracker.recordSession (tr : TrackerState)
    (session : SessionResult) : TrackerState :=
  let sess := tr.sessions ++ [session]
  { tr with sessions := if sess.length > maxSessions then sess.tail
      else sess }

/-- The filter predicate of `getLearnedEVAdjustment`: experiences matching
the `(playerTotal, dealerUpcardRank, action)` triple. -/
def matchesSituation (playerTotal : ℤ) (dealerUpcardRank : Rank)
    (action : String) (e : GameExperience) : Bool :=
  decide (e.playerTotal = playerTotal)
    && decide (e.dealerUpcard.rank = dealerUpcardRank)
    && decide (e.actionTaken = action)

/-- `ExperienceTracker.getLearnedEVAdjustment`: 0 below five matching hands;
otherwise the average `chipsWon` of the matching hands divided by 100,
clamped to `[−0.2, 0.2]`. -/
def getLearnedEVAdjustment (tr : TrackerState) (playerTotal : ℤ)
    (dealerUpcardRank : Rank) (action : String) : ℚ :=
  let relevantExperiences :=
    tr.experiences.filter (matchesSituation playerTotal dealerUpcardRank action)
  if relevantExperiences.length < 5 then 0
  else
    let avgOutcome := (relevantExperiences.map (fun e => e.chipsWon)).sum
      / (relevantExperiences.length : ℚ)
    max (-(2 / 10)) (min (2 / 10) (avgOutcome / 100))

/-- C5: the learned EV adjustment is exactly 0 when fewer than five recorded
hands match the `(playerTotal, dealerUpcardRank, action)` triple, and exactly
the clamped average `chipsWon / 100` (clamp `[−0.2, 0.2]`) when at least
five match. -/
theorem getLearnedEVAdjustment_spec (tr : TrackerState) (playerTotal : ℤ)
    (dealerUpcardRank : Rank) (action : String) :
    ((tr.experiences.filter
        (matchesSituation playerTotal dealerUpcardRank action)).length < 5 →
      getLearnedEVAdjustment tr playerTotal dealerUpcardRank action = 0)
    ∧ (5 ≤ (tr.experiences.filter
        (matchesSituation playerTotal dealerUpcardRank action)).length →
      getLearnedEVAdjustment tr playerTotal dealerUpcardRank action
        = max (-(2 / 10)) (min (2 / 10)
            (((tr.experiences.filter
                (matchesSituation playerTotal dealerUpcardRank action)).map
                  (fun e => e.chipsWon)).sum
              / ((tr.experiences.filter
                  (matchesSituation playerTotal dealerUpcardRank
                    action)).length : ℚ) / 100))) := by
  unfold getLearnedEVAdjustment
  constructor
  · intro h
    rw [if_pos h]
  · intro h
    rw [if_neg (by omega)]

/-- A five-hand history for the `getLearnedEVAdjustment` witness: five
matching "hit on 16 vs 10" hands at +50 chips each. -/
def fiveHitHands : TrackerState :=
  { experiences := List.replicate 5
      { sessionId := "s1", handNumber := 1, playerTotal := 16,
        dealerUpcard := ⟨Suit.diamonds, Rank.r10⟩, actionTaken := "hit",
        betSize := 25, handResult := "win", chipsWon := 50 }
    sessions := [] }

/-- Witness for `getLearnedEVAdjustment_spec`: an empty history returns 0,
and five matching +50-chip hands return the clamp cap `0.2`. -/
theorem getLearnedEVAdjustment_spec_witness :
    getLearnedEVAdjustment ⟨[], []⟩ 16 Rank.r10 "hit" = 0
    ∧ getLearnedEVAdjustment fiveHitHands 16 Rank.r10 "hit"
        = max (-(2 / 10)) (min (2 / 10)
            (((fiveHitHands.experiences.filter
                (matchesSituation 16 Rank.r10 "hit")).map
                  (fun e => e.chipsWon)).sum
              / ((fiveHitHands.experiences.filter
                  (matchesSituation 16 Rank.r10 "hit")).length : ℚ) / 100)) :=
  ⟨(getLearnedEVAdjustment_spec ⟨[], []⟩ 16 Rank.r10 "hit").1 (by decide),
   (getLearnedEVAdjustment_spec fiveHitHands 16 Rank.r10 "hit").2 (by decide)⟩

/-! ## OpponentProfiler (`src/learning/OpponentProfiler.ts`)

Per-opponent behavioural profiles with running averages, derived scores and
a fully recomputed weakness tag set. -/

/-- The `stats` block of an opponent profile. -/
structure OpponentStats : Type where
  avgBetSize : ℚ
  avgFinalChips : ℚ
  avgFinalRank : ℚ
  hitFrequency : ℚ
  standFrequency : ℚ
  doubleFrequency : ℚ
  splitFrequency : ℚ
  aggressionScore : ℚ
  skillScore : ℚ
  consistencyScore : ℚ
deriving DecidableEq, Repr

/-- The `patterns` block of observed-frequency indicators. -/
structure OpponentPatterns : Type where
  hitOn16VsDealer7 : ℚ
  standOn12VsDealer2 : ℚ
  doubleOn11 : ℚ
  splitAces : ℚ
  split10s : ℚ
  increaseBetAfterWin : ℚ
  increaseBetAfterLoss : ℚ
  averageRiskLevel : ℚ
deriving DecidableEq, Repr

/-- One opponent profile. -/
structure OpponentProfile : Type where
  walletAddress : String
  sessionsPlayed : ℕ
  lastSeenAt : ℤ
  firstSeenAt : ℤ
  bobWins : ℕ
  opponentWins : ℕ
  stats : OpponentStats
  patterns : OpponentPatterns
  weaknesses : List String
deriving DecidableEq, Repr

/-- `createNewProfile(walletAddress)` (`Date.now()` is passed in as
`now`). -/
def createNewProfile (walletAddress : String) (now : ℤ) : OpponentProfile :=
  { walletAddress := walletAddress
    sessionsPlayed := 0
    lastSeenAt := now
    firstSeenAt := now
    bobWins := 0
    opponentWins := 0
    stats :=
      { avgBetSize := 0, avgFinalChips := 0, avgFinalRank := 0
        hitFrequency := 0, standFrequency := 0, doubleFrequency := 0
        splitFrequency := 0, aggressionScore := 1 / 2, skillScore := 1 / 2
        consistencyScore := 1 / 2 }
    patterns :=
      { hitOn16VsDealer7 := 0, standOn12VsDealer2 := 0, doubleOn11 := 0
        splitAces := 0, split10s := 0, increaseBetAfterWin := 0
        increaseBetAfterLoss := 0, averageRiskLevel := 1 / 2 }
    weaknesses := [] }

/-- `runningAverage(currentAvg, newValue, n) = (currentAvg·n + newValue) /
(n + 1)`. -/
def runningAverage (currentAvg newValue : ℚ) (n : ℕ) : ℚ :=
  (currentAvg * n + newValue) / (n + 1)

/-- `updateStats(profile, sessionData)`: running averages of bet size,
final chips and final rank, plus per-action frequencies when the session
had any actions. -/
def updateStats (profile : OpponentProfile) (sessionData : OpponentSessionData) :
    OpponentProfile :=
  let n := profile.sessionsPlayed
  let s1 :=
    { profile.stats with
      avgBetSize := runningAverage profile.stats.avgBetSize
        sessionData.avgBetSize n
      avgFinalChips := runningAverage profile.stats.avgFinalChips
        sessionData.finalChips n
      avgFinalRank := runningAverage profile.stats.avgFinalRank
        (sessionData.finalRank : ℚ) n }
  let totalActions := sessionData.totalHits + sessionData.totalStands
    + sessionData.totalDoubles + sessionData.totalSplits
  let s2 :=
    if totalActions > 0 then
      { s1 with
        hitFrequency := runningAverage s1.hitFrequency
          ((sessionData.totalHits : ℚ) / (totalActions : ℚ)) n
        standFrequency := runningAverage s1.standFrequency
          ((sessionData.totalStands : ℚ) / (totalActions : ℚ)) n
        doubleFrequency := runningAverage s1.doubleFrequency
          ((sessionData.totalDoubles : ℚ) / (totalActions : ℚ)) n
        splitFrequency := runningAverage s1.splitFrequency
          ((sessionData.totalSplits : ℚ) / (totalActions : ℚ)) n }
    else s1
  { profile with stats := s2 }

/-- `calculateScores(profile)`: aggression from normalized bet size and
double frequency; skill from strategic markers, clamped to `[0,1]`;
consistency fixed at 0.7. -/
def calculateScores (profile : OpponentProfile) : OpponentProfile :=
  let avgBetNormalized := min 1 (profile.stats.avgBetSize / 75)
  let doubleFreqNormalized := profile.stats.doubleFrequency * 2
  let aggressionScore := (avgBetNormalized + doubleFreqNormalized) / 2
  let skill0 : ℚ := 0.5
  let skill1 := if profile.patterns.doubleOn11 > 0.8 then skill0 + 0.1
    else skill0
  let skill2 := if profile.patterns.splitAces > 0.8 then skill1 + 0.1
    else skill1
  let skill3 := if profile.patterns.hitOn16VsDealer7 > 0.6 then skill2 + 0.05
    else skill2
  let skill4 := if profile.patterns.split10s > 0.05 then skill3 - 0.3
    else skill3
  let skill5 := if profile.patterns.standOn12VsDealer2 > 0.6 then skill4 - 0.1
    else skill4
  let skill6 :=
    if profile.stats.avgFinalRank > (profile.sessionsPlayed : ℚ) * 0.6 then
      skill5 - 0.1
    else skill5
  { profile with stats :=
      { profile.stats with
        aggressionScore := aggressionScore
        skillScore := max 0 (min 1 skill6)
        consistencyScore := 0.7 } }

/-- `identifyWeaknesses(profile)`: the weakness tag list, rebuilt from
scratch from the current scores and patterns on every call. -/
def identifyWeaknesses (profile : OpponentProfile) : OpponentProfile :=
  let weaknesses :=
    (if profile.stats.aggressionScore > 0.75 then ["overly_aggressive"]
     else [])
    ++ (if profile.stats.aggressionScore < 0.25 then ["overly_conservative"]
        else [])
    ++ (if profile.stats.skillScore < 0.4 then ["poor_strategy"] else [])
    ++ (if profile.patterns.split10s > 0.05 then ["splits_tens"] else [])
    ++ (if profile.patterns.doubleOn11 < 0.5 then
          ["misses_double_opportunities"]
        else [])
    ++ (if profile.stats.doubleFrequency < 0.05 then ["rarely_doubles"]
        else [])
  { profile with weaknesses := weaknesses }

/-- The opening statements of `updateProfile`: bump `sessionsPlayed`,
refresh `lastSeenAt`, and settle the head-to-head record from the rank
comparison. -/
def bumpEncounter (profile : OpponentProfile)
    (sessionData : OpponentSessionData) (bobRank now : ℤ) : OpponentProfile :=
  let p1 := { profile with
    sessionsPlayed := profile.sessionsPlayed + 1
    lastSeenAt := now }
  if bobRank < sessionData.finalRank then { p1 with bobWins := p1.bobWins + 1 }
  else if bobRank > sessionData.finalRank then
    { p1 with opponentWins := p1.opponentWins + 1 }
  else p1

/-- `updateProfile(walletAddress, sessionData, bobRank)` applied to the
resolved profile (the existing one, or `createNewProfile` on a first
encounter): bump the encounter counters, then `updateStats`,
`calculateScores` and `identifyWeaknesses` in sequence. -/
def updateProfile (profile : OpponentProfile)
    (sessionData : OpponentSessionData) (bobRank now : ℤ) : OpponentProfile :=
  identifyWeaknesses (calculateScores
    (updateStats (bumpEncounter profile sessionData bobRank now) sessionData))

lemma bumpEncounter_stats (p : OpponentProfile) (d : OpponentSessionData)
    (r t : ℤ) : (bumpEncounter p d r t).stats = p.stats := by
  unfold bumpEncounter
  split_ifs <;> rfl

lemma bumpEncounter_patterns (p : OpponentProfile) (d : OpponentSessionData)
    (r t : ℤ) : (bumpEncounter p d r t).patterns = p.patterns := by
  unfold bumpEncounter
  split_ifs <;> rfl

lemma updateStats_avgBetSize (q : OpponentProfile) (d : OpponentSessionData) :
    (updateStats q d).stats.avgBetSize
      = runningAverage q.stats.avgBetSize d.avgBetSize q.sessionsPlayed := by
  simp only [updateStats]
  split_ifs <;> rfl

lemma updateStats_patterns (q : OpponentProfile) (d : OpponentSessionData) :
    (updateStats q d).patterns = q.patterns := by
  simp only [updateStats]

lemma calculateScores_patterns (q : OpponentProfile) :
    (calculateScores q).patterns = q.patterns := rfl

lemma identifyWeaknesses_stats (q : OpponentProfile) :
    (identifyWeaknesses q).stats = q.stats := rfl

lemma identifyWeaknesses_patterns (q : OpponentProfile) :
    (identifyWeaknesses q).patterns = q.patterns := rfl

lemma identifyWeaknesses_mem_splits_tens (q : OpponentProfile) :
    "splits_tens" ∈ (identifyWeaknesses q).weaknesses
      ↔ q.patterns.split10s > 0.05 := by
  unfold identifyWeaknesses
  simp only [List.mem_append]
  split_ifs <;> simp_all

/-- C9: after any `updateProfile`, the weakness set contains
`"splits_tens"` exactly when the (unchanged) split-tens observed frequency
exceeds 0.05 — the set is rebuilt from scratch on every update, so the tag
appears when an update sees the frequency above the threshold and is gone
once it is at or below it. -/
theorem updateProfile_splits_tens_iff (p : OpponentProfile)
    (d : OpponentSessionData) (bobRank now : ℤ) :
    (updateProfile p d bobRank now).patterns.split10s = p.patterns.split10s
    ∧ ("splits_tens" ∈ (updateProfile p d bobRank now).weaknesses
        ↔ p.patterns.split10s > 0.05) := by
  have hpat : (updateProfile p d bobRank now).patterns = p.patterns := by
    unfold updateProfile
    rw [identifyWeaknesses_patterns, calculateScores_patterns,
      updateStats_patterns, bumpEncounter_patterns]
  refine ⟨by rw [hpat], ?_⟩
  unfold updateProfile
  rw [identifyWeaknesses_mem_splits_tens, calculateScores_patterns,
    updateStats_patterns, bumpEncounter_patterns]

/-- A session consisting of a single double-down at a 75-chip average bet;
pushes the double frequency up fastest. -/
def allDoublesSession : OpponentSessionData :=
  { walletAddress := "opp", finalRank := 1, finalChips := 1000,
    avgBetSize := 75, totalHits := 0, totalStands := 0, totalDoubles := 1,
    totalSplits := 0 }

/-- C4 counterexample: three all-double sessions against a fresh profile
drive `doubleFrequency` to 3/4, so
`aggressionScore = (min(1, 56.25/75) + 2·(3/4))/2 = 9/8 > 1` — the
aggression score is not clamped to `[0,1]`. -/
theorem aggressionScore_can_exceed_one :
    (updateProfile (updateProfile (updateProfile
        (createNewProfile "opp" 0) allDoublesSession 1 0)
        allDoublesSession 1 0) allDoublesSession 1 0).stats.aggressionScore
      = 9 / 8
    ∧ ¬ (updateProfile (updateProfile (updateProfile
        (createNewProfile "opp" 0) allDoublesSession 1 0)
        allDoublesSession 1 0) allDoublesSession 1 0).stats.aggressionScore
      ≤ 1 := by
  constructor <;>
    norm_num [updateProfile, updateStats, calculateScores, identifyWeaknesses,
      bumpEncounter, createNewProfile, allDoublesSession, runningAverage,
      min_def, max_def]

/-- The stats facts that every reachable profile maintains: a non-negative
average bet and a double frequency inside `[0,1]`. -/
def profileStatsInv (p : OpponentProfile) : Prop :=
  0 ≤ p.stats.avgBetSize
    ∧ 0 ≤ p.stats.doubleFrequency ∧ p.stats.doubleFrequency ≤ 1

lemma runningAverage_nonneg (c x : ℚ) (n : ℕ) (hc : 0 ≤ c) (hx : 0 ≤ x) :
    0 ≤ runningAverage c x n := by
  unfold runningAverage
  positivity

lemma runningAverage_le_one (c x : ℚ) (n : ℕ) (hc : c ≤ 1) (hx : x ≤ 1) :
    runningAverage c x n ≤ 1 := by
  unfold runningAverage
  rw [div_le_one (by positivity)]
  have hcn : c * n ≤ 1 * n :=
    mul_le_mul_of_nonneg_right hc (by positivity)
  linarith

lemma ratio_mem_unit (a b : ℕ) (hab : a ≤ b) (hb : 0 < b) :
    0 ≤ ((a : ℚ) / (b : ℚ)) ∧ ((a : ℚ) / (b : ℚ)) ≤ 1 := by
  constructor
  · positivity
  · rw [div_le_one (by exact_mod_cast hb)]
    exact_mod_cast hab

lemma updateStats_doubleFrequency_bounds (q : OpponentProfile)
    (d : OpponentSessionData) (h0 : 0 ≤ q.stats.doubleFrequency)
    (h1 : q.stats.doubleFrequency ≤ 1) :
    0 ≤ (updateStats q d).stats.doubleFrequency
      ∧ (updateStats q d).stats.doubleFrequency ≤ 1 := by
  simp only [updateStats]
  split_ifs with h
  · have hr := ratio_mem_unit d.totalDoubles
      (d.totalHits + d.totalStands + d.totalDoubles + d.totalSplits)
      (by omega) h
    exact ⟨runningAverage_nonneg _ _ _ h0 hr.1,
      runningAverage_le_one _ _ _ h1 hr.2⟩
  · exact ⟨h0, h1⟩

lemma calculateScores_fields (q : OpponentProfile) :
    (calculateScores q).stats.avgBetSize = q.stats.avgBetSize
    ∧ (calculateScores q).stats.doubleFrequency = q.stats.doubleFrequency
    ∧ (calculateScores q).stats.aggressionScore
        = (min 1 (q.stats.avgBetSize / 75) + q.stats.doubleFrequency * 2) / 2
    ∧ (calculateScores q).stats.consistencyScore = 0.7 :=
  ⟨rfl, rfl, rfl, rfl⟩

lemma clamp01_bounds (s : ℚ) :
    0 ≤ max 0 (min 1 s) ∧ max 0 (min 1 s) ≤ 1 :=
  ⟨le_max_left _ _, max_le zero_le_one (min_le_left _ _)⟩

lemma calculateScores_skill_bounds (q : OpponentProfile) :
    0 ≤ (calculateScores q).stats.skillScore
      ∧ (calculateScores q).stats.skillScore ≤ 1 :=
  clamp01_bounds _

lemma aggression_formula_bounds (a df : ℚ) (ha : 0 ≤ a) (hdf0 : 0 ≤ df)
    (hdf1 : df ≤ 1) :
    0 ≤ (min 1 (a / 75) + df * 2) / 2
      ∧ (min 1 (a / 75) + df * 2) / 2 ≤ 3 / 2 := by
  have hlo : 0 ≤ min 1 (a / 75) := le_min zero_le_one (by positivity)
  have hhi : min 1 (a / 75) ≤ 1 := min_le_left _ _
  constructor <;> linarith

/-- C4 amended: after every `updateProfile` (with a non-negative session
average bet), `skillScore` lies in `[0,1]`, `consistencyScore` is exactly
0.7, and `aggressionScore` lies in `[0, 3/2]` — but not necessarily in
`[0,1]` (see `aggressionScore_can_exceed_one`); the profile invariant
`profileStatsInv` holds of a fresh profile and is preserved, so the bounds
hold along every update sequence. -/
theorem updateProfile_score_bounds :
    (∀ (w : String) (t : ℤ), profileStatsInv (createNewProfile w t))
    ∧ (∀ (p : OpponentProfile) (d : OpponentSessionData) (r t : ℤ),
        profileStatsInv p → 0 ≤ d.avgBetSize →
        profileStatsInv (updateProfile p d r t)
        ∧ 0 ≤ (updateProfile p d r t).stats.aggressionScore
        ∧ (updateProfile p d r t).stats.aggressionScore ≤ 3 / 2
        ∧ 0 ≤ (updateProfile p d r t).stats.skillScore
        ∧ (updateProfile p d r t).stats.skillScore ≤ 1
        ∧ (updateProfile p d r t).stats.consistencyScore = 0.7) := by
  constructor
  · intro w t
    refine ⟨le_refl 0, le_refl 0, ?_⟩
    norm_num [createNewProfile]
  · intro p d r t hp hd
    obtain ⟨hbet, hdf0, hdf1⟩ := hp
    set q := bumpEncounter p d r t with hq
    have hqstats : q.stats = p.stats := bumpEncounter_stats p d r t
    have hbet2 : (updateStats q d).stats.avgBetSize
        = runningAverage p.stats.avgBetSize d.avgBetSize q.sessionsPlayed := by
      rw [updateStats_avgBetSize, hqstats]
    have hbetpos : 0 ≤ (updateStats q d).stats.avgBetSize := by
      rw [hbet2]; exact runningAverage_nonneg _ _ _ hbet hd
    have hdfb : 0 ≤ (updateStats q d).stats.doubleFrequency
        ∧ (updateStats q d).stats.doubleFrequency ≤ 1 :=
      updateStats_doubleFrequency_bounds q d (hqstats ▸ hdf0) (hqstats ▸ hdf1)
    have hcs := calculateScores_fields (updateStats q d)
    have hup : updateProfile p d r t
        = identifyWeaknesses (calculateScores (updateStats q d)) := rfl
    have hiw : (updateProfile p d r t).stats
        = (calculateScores (updateStats q d)).stats := by
      rw [hup, identifyWeaknesses_stats]
    have haggr := aggression_formula_bounds
      (updateStats q d).stats.avgBetSize
      (updateStats q d).stats.doubleFrequency hbetpos hdfb.1 hdfb.2
    have hskill := calculateScores_skill_bounds (updateStats q d)
    refine ⟨⟨?_, ?_, ?_⟩, ?_, ?_, ?_, ?_, ?_⟩
    · rw [hiw, hcs.1]; exact hbetpos
    · rw [hiw, hcs.2.1]; exact hdfb.1
    · rw [hiw, hcs.2.1]; exact hdfb.2
    · rw [hiw, hcs.2.2.1]; exact haggr.1
    · rw [hiw, hcs.2.2.1]; exact haggr.2
    · rw [hiw]; exact hskill.1
    · rw [hiw]; exact hskill.2
    · rw [hiw, hcs.2.2.2]

/-- Witness for `updateProfile_score_bounds`: one all-double session against
a fresh profile. -/
theorem updateProfile_score_bounds_witness :
    profileStatsInv (createNewProfile "opp" 0)
    ∧ (profileStatsInv
        (updateProfile (createNewProfile "opp" 0) allDoublesSession 1 0)
      ∧ 0 ≤ (updateProfile (createNewProfile "opp" 0) allDoublesSession 1
          0).stats.aggressionScore
      ∧ (updateProfile (createNewProfile "opp" 0) allDoublesSession 1
          0).stats.aggressionScore ≤ 3 / 2
      ∧ 0 ≤ (updateProfile (createNewProfile "opp" 0) allDoublesSession 1
          0).stats.skillScore
      ∧ (updateProfile (createNewProfile "opp" 0) allDoublesSession 1
          0).stats.skillScore ≤ 1
      ∧ (updateProfile (createNewProfile "opp" 0) allDoublesSession 1
          0).stats.consistencyScore = 0.7) :=
  ⟨updateProfile_score_bounds.1 "opp" 0,
   updateProfile_score_bounds.2 (createNewProfile "opp" 0) allDoublesSession
     1 0 (updateProfile_score_bounds.1 "opp" 0)
     (by norm_num [allDoublesSession])⟩

/-! ## MemoryManager and LearningCoordinator
(`src/learning/MemoryManager.ts`, `src/learning/LearningCoordinator.ts`)

Persistence is modelled by passing the backing store's outcome in as an
`Except`: `Deno.readTextFile` + `JSON.parse` + map re-hydration collapse to
an `Except FsError BobMemory`, and `Deno.writeTextFile` to an
`Except FsError Unit`. -/

/-- Failure classes of the backing store: the missing-file case
(`Deno.errors.NotFound`) and every other read/write error. -/
inductive FsError : Type
  | notFound
  | ioError
deriving DecidableEq, Repr

/-- One entry of the strategy-adjustment log. -/
structure StrategyAdjustment : Type where
  timestamp : ℤ
  situation : String
  adjustment : String
  reason : String
deriving DecidableEq, Repr

/-- The `performance` block of `BobMemory`. -/
structure PerformanceBlock : Type where
  winRateBySession : List ℚ
  avgRankBySession : List ℚ
  avgChipsBySession : List ℚ
  totalWins : ℕ
  totalTop3 : ℕ
  totalProfit : ℚ
  winRateBeforeLearning : ℚ
  winRateAfterLearning : ℚ
deriving DecidableEq, Repr

/-- The persisted aggregate root (`BobMemory`); the opponent-profile map is
kept as an insertion-ordered association list. -/
structure BobMemory : Type where
  version : String
  totalSessionsPlayed : ℕ
  totalHandsPlayed : ℕ
  learningEnabled : Bool
  lastUpdated : ℤ
  opponentProfiles : List (String × OpponentProfile)
  performance : PerformanceBlock
  recentExperiences : List GameExperience
  recentSessions : List SessionResult
  strategyAdjustments : List StrategyAdjustment
deriving DecidableEq, Repr

/-- `MemoryManager.createEmptyMemory()` (`Date.now()` passed as `now`). -/
def createEmptyMemory (botEnabled : Bool) (now : ℤ) : BobMemory :=
  { version := "1.0.0"
    totalSessionsPlayed := 0
    totalHandsPlayed := 0
    learningEnabled := botEnabled
    lastUpdated := now
    opponentProfiles := []
    performance :=
      { winRateBySession := [], avgRankBySession := [], avgChipsBySession := []
        totalWins := 0, totalTop3 := 0, totalProfit := 0
        winRateBeforeLearning := 0, winRateAfterLearning := 0 }
    recentExperiences := []
    recentSessions := []
    strategyAdjustments := [] }

/-- `MemoryManager.load()`: on a successful read-and-parse the loaded,
re-hydrated memory replaces the current one; every failure — the expected
`NotFound` on first run as well as any other read error — is caught, logged
and answered with the current in-memory state.  The function is total: a
load can never raise. -/
def loadMemory (current : BobMemory)
    (readResult : Except FsError BobMemory) : BobMemory :=
  match readResult with
  | .ok loaded => loaded
  | .error _ => current

/-- `MemoryManager.save()`: a write failure is caught, logged — and then
re-thrown (`throw error`), so the caller sees the error. -/
def saveMemory (writeResult : Except FsError Unit) : Except FsError Unit :=
  match writeResult with
  | .ok _ => .ok ()
  | .error e => .error e

/-- `MemoryManager.updatePerformance(sessionResult)`: push into the three
100-capped rolling windows, bump the win counters, and refresh the
before/after-learning win rates around the 20-session mark. -/
def updatePerformance (m : BobMemory) (s : SessionResult) : BobMemory :=
  let w1 := m.performance.winRateBySession
    ++ [if s.finalRank = 1 then (1 : ℚ) else 0]
  let r1 := m.performance.avgRankBySession ++ [(s.finalRank : ℚ)]
  let c1 := m.performance.avgChipsBySession ++ [s.finalChips]
  let w2 := if w1.length > 100 then w1.tail else w1
  let r2 := if w1.length > 100 then r1.tail else r1
  let c2 := if w1.length > 100 then c1.tail else c1
  let totalWins := if s.finalRank = 1 then m.performance.totalWins + 1
    else m.performance.totalWins
  let totalTop3 := if s.finalRank ≤ 3 then m.performance.totalTop3 + 1
    else m.performance.totalTop3
  let totalProfit := m.performance.totalProfit + s.netProfit
  let rates :=
    if m.totalSessionsPlayed ≤ 20 then
      (((w2.filter (fun x => decide (x = 1))).length : ℚ) / (w2.length : ℚ),
       m.performance.winRateAfterLearning)
    else
      let recent20 := w2.drop (w2.length - 20)
      (m.performance.winRateBeforeLearning,
       ((recent20.filter (fun x => decide (x = 1))).length : ℚ)
         / (recent20.length : ℚ))
  { m with
    performance :=
      { winRateBySession := w2, avgRankBySession := r2, avgChipsBySession := c2
        totalWins := totalWins, totalTop3 := totalTop3
        totalProfit := totalProfit
        winRateBeforeLearning := rates.1, winRateAfterLearning := rates.2 }
    totalSessionsPlayed := m.totalSessionsPlayed + 1 }

/-- `MemoryManager.updateOpponentProfiles(profiles)`. -/
def updateOpponentProfiles (m : BobMemory)
    (profiles : List (String × OpponentProfile)) : BobMemory :=
  { m with opponentProfiles := profiles }

/-- `MemoryManager.updateExperiences(experiences, sessions)`. -/
def updateExperiences (m : BobMemory) (experiences : List GameExperience)
    (sessions : List SessionResult) : BobMemory :=
  { m with
    recentExperiences := experiences
    recentSessions := sessions
    totalHandsPlayed := m.totalHandsPlayed + experiences.length }

/-- `OpponentProfiler.updateProfile(walletAddress, sessionData, bobRank)` at
the map level: resolve the existing profile (or create a fresh one), run the
per-profile update, and store the result back under the key (`Map.set`
preserves insertion order for existing keys and appends new ones). -/
def OpponentProfiler.updateProfile
    (profiles : List (String × OpponentProfile)) (walletAddress : String)
    (sessionData : OpponentSessionData) (bobRank now : ℤ) :
    List (String × OpponentProfile) :=
  let existing := profiles.lookup walletAddress
  let updated := Blackjack.updateProfile
    (existing.getD (createNewProfile walletAddress now)) sessionData bobRank now
  match existing with
  | some _ => profiles.map
      (fun kv => if kv.1 = walletAddress then (walletAddress, updated) else kv)
  | none => profiles ++ [(walletAddress, updated)]

/-- The `LearningCoordinator`'s state: its three components plus the
enabled flag and current-session tracking. -/
structure LearningState : Type where
  profiles : List (String × OpponentProfile)
  tracker : TrackerState
  memory : BobMemory
  enabled : Bool
  currentSessionId : Option String
  currentSessionHandCount : ℕ
deriving DecidableEq, Repr

/-- `LearningCoordinator.recordSession(sessionResult, bobRank)`: no-op when
disabled; otherwise record the session in the tracker, update every
opponent profile, fold the results into memory, and save.  Insight
generation and logging touch no state and cannot fail; they are elided.
The surrounding `await this.save()` has no catch, so a save error
propagates out of `recordSession`. -/
def LearningCoordinator.recordSession (st : LearningState)
    (sessionResult : SessionResult) (bobRank now : ℤ)
    (writeResult : Except FsError Unit) : Except FsError LearningState :=
  if st.enabled = false then .ok st
  else
    let tracker1 := ExperienceTracker.recordSession st.tracker sessionResult
    let profiles1 := sessionResult.opponents.foldl
      (fun ps o => OpponentProfiler.updateProfile ps o.walletAddress o
        bobRank now)
      st.profiles
    let memory1 := updatePerformance st.memory sessionResult
    let memory2 := updateOpponentProfiles memory1 profiles1
    let memory3 := updateExperiences memory2 tracker1.experiences
      tracker1.sessions
    match saveMemory writeResult with
    | .ok _ => .ok { st with
        tracker := tracker1
        profiles := profiles1
        memory := memory3
        currentSessionId := none
        currentSessionHandCount := 0 }
    | .error e => .error e

/-- JavaScript truthiness of the optional `betSize`: present and
non-zero. -/
def jsTruthy (b : Option ℚ) : Bool :=
  match b with
  | some v => decide (v ≠ 0)
  | none => false

/-- `LearningCoordinator.adjustDecisionForOpponent(decision, wallets)`:
against known opponents of average skill below 0.4 the wager is scaled by
1.2 and capped at the literal 100; against average aggression above 0.7 the
wager is left in place (defaulting to 25 when absent). -/
def LearningCoordinator.adjustDecisionForOpponent (enabled : Bool)
    (profiles : List (String × OpponentProfile)) (decision : BotDecision)
    (opponentWallets : List String) : BotDecision :=
  if enabled = false ∨ opponentWallets.length = 0 then decision
  else
    let opponents := opponentWallets.filterMap (fun w => profiles.lookup w)
    if opponents.length = 0 then decision
    else
      let avgSkill := (opponents.map (fun o => o.stats.skillScore)).sum
        / (opponents.length : ℚ)
      let avgAggression :=
        (opponents.map (fun o => o.stats.aggressionScore)).sum
          / (opponents.length : ℚ)
      if jsTruthy decision.betSize = true ∧ avgSkill < 4 / 10 then
        { decision with
          betSize := some (min (decision.betSize.getD 0 * (12 / 10)) 100) }
      else if avgAggression > 7 / 10 then
        { decision with
          betSize := some (if jsTruthy decision.betSize = true then
            decision.betSize.getD 0 else 25) }
      else decision

/-- A minimal enabled learning state mid-session. -/
def demoLearningState : LearningState :=
  { profiles := []
    tracker := ⟨[], []⟩
    memory := createEmptyMemory true 0
    enabled := true
    currentSessionId := some "s1"
    currentSessionHandCount := 2 }

/-- A completed two-player session with no opponent records. -/
def demoSessionResult : SessionResult :=
  { sessionId := "s1", finalRank := 1, totalPlayers := 2, finalChips := 1100
    handsWon := 3, handsPlayed := 5, netProfit := 100, payout := 0.09
    opponents := [] }

/-- C6 counterexample: a write failure of the memory store *does* escape
the session-recording path — `save()` logs the error and re-throws it, and
`recordSession` awaits `save()` with no catch, so `recordSession` itself
errors out (it is the outer `GameClient.handleSessionCompletion` that
finally swallows it). -/
theorem recordSession_raises_on_write_failure :
    LearningCoordinator.recordSession demoLearningState demoSessionResult 1 0
      (Except.error FsError.ioError) = Except.error FsError.ioError := rfl

/-- C6 amended: load failures never escape — a missing file and any other
read error both yield the current (initially empty) in-memory state, and
`loadMemory` is total by construction; a *write* failure, however, is
logged and re-thrown by `save`, and `recordSession` propagates it to its
caller (all other work of `recordSession` is pure and cannot fail, so
`recordSession` errors exactly when the write does). -/
theorem persistence_failure_handling :
    (∀ (current : BobMemory) (e : FsError),
      loadMemory current (Except.error e) = current)
    ∧ (∀ (st : LearningState) (s : SessionResult) (r t : ℤ) (e : FsError),
        st.enabled = true →
        LearningCoordinator.recordSession st s r t (Except.error e)
          = Except.error e)
    ∧ (∀ (st : LearningState) (s : SessionResult) (r t : ℤ),
        (LearningCoordinator.recordSession st s r t
          (Except.ok ())).isOk = true) := by
  refine ⟨fun current e => rfl, ?_, ?_⟩
  · intro st s r t e hen
    simp [LearningCoordinator.recordSession, hen, saveMemory]
  · intro st s r t
    by_cases hen : st.enabled = false <;>
      simp [LearningCoordinator.recordSession, hen, saveMemory, Except.isOk,
        Except.toBool]

/-- Witness for `persistence_failure_handling`: the empty memory survives a
failed read, a failed write errors out of `recordSession`, and a successful
write yields a successful `recordSession`. -/
theorem persistence_failure_handling_witness :
    loadMemory (createEmptyMemory true 0) (Except.error FsError.notFound)
      = createEmptyMemory true 0
    ∧ LearningCoordinator.recordSession demoLearningState demoSessionResult
        1 0 (Except.error FsError.ioError) = Except.error FsError.ioError
    ∧ (LearningCoordinator.recordSession demoLearningState
        demoSessionResult 1 0 (Except.ok ())).isOk = true :=
  ⟨persistence_failure_handling.1 (createEmptyMemory true 0) FsError.notFound,
   persistence_failure_handling.2.1 demoLearningState demoSessionResult 1 0
     FsError.ioError rfl,
   persistence_failure_handling.2.2 demoLearningState demoSessionResult 1 0⟩

/-- A known opponent with skill score 0.2 (below the 0.4 threshold). -/
def weakOpponentProfile : OpponentProfile :=
  { createNewProfile "weak" 0 with
    stats := { (createNewProfile "weak" 0).stats with skillScore := 1 / 5 } }

/-- A decision with a 90-chip wager already attached. -/
def decision90 : BotDecision :=
  { action := Action.stand, confidence := 1, expectedValue := ((0 : ℚ) : WithBot ℚ)
    betSize := some 90 }

/-- C7 counterexample: against a weak opponent, a 90-chip wager is scaled
to `min(108, 100) = 100` — the cap is the hardcoded literal 100, not the
configured table maximum: under a configuration with `maxBet = 50` the
returned wager (100) exceeds the configured maximum. -/
theorem adjustDecision_cap_is_hardcoded :
    (LearningCoordinator.adjustDecisionForOpponent true
        [("weak", weakOpponentProfile)] decision90 ["weak"]).betSize
      = some 100
    ∧ ¬ ((100 : ℚ) ≤
        ({ minBet := 25, maxBet := 50, countThresholdBetIncrease := 2 } :
          BetConfig).maxBet) := by
  refine ⟨?_, by norm_num⟩
  norm_num [LearningCoordinator.adjustDecisionForOpponent, jsTruthy,
    weakOpponentProfile, createNewProfile, decision90, List.lookup,
    List.filterMap_cons, beq_self_eq_true, min_def]

/-- C7 amended: with learning enabled, a truthy wager `b` and at least one
known opponent profile, an average skill below 0.4 rescales the wager to
`min(1.2·b, 100)` — capped at the literal 100 (the *default* table maximum,
regardless of the configured `maxBet`) — while an average aggression above
0.7 (when the skill branch does not fire) leaves the wager unchanged. -/
theorem adjustDecisionForOpponent_amended
    (profiles : List (String × OpponentProfile)) (decision : BotDecision)
    (wallets : List String) (b : ℚ) (hb : decision.betSize = some b)
    (hb0 : b ≠ 0)
    (hne : (wallets.filterMap (fun w => profiles.lookup w)).length ≠ 0) :
    (((wallets.filterMap (fun w => profiles.lookup w)).map
        (fun o => o.stats.skillScore)).sum
      / ((wallets.filterMap (fun w => profiles.lookup w)).length : ℚ)
        < 4 / 10 →
      (LearningCoordinator.adjustDecisionForOpponent true profiles decision
        wallets).betSize = some (min (b * (12 / 10)) 100))
    ∧ (¬ ((wallets.filterMap (fun w => profiles.lookup w)).map
          (fun o => o.stats.skillScore)).sum
        / ((wallets.filterMap (fun w => profiles.lookup w)).length : ℚ)
          < 4 / 10 →
      ((wallets.filterMap (fun w => profiles.lookup w)).map
          (fun o => o.stats.aggressionScore)).sum
        / ((wallets.filterMap (fun w => profiles.lookup w)).length : ℚ)
          > 7 / 10 →
      (LearningCoordinator.adjustDecisionForOpponent true profiles decision
        wallets).betSize = some b) := by
  have hwne : ¬ wallets.length = 0 := by
    intro h0
    rw [List.length_eq_zero] at h0
    subst h0
    simp at hne
  have htruthy : jsTruthy decision.betSize = true := by
    rw [hb]
    simp [jsTruthy, hb0]
  constructor
  · intro hskill
    unfold LearningCoordinator.adjustDecisionForOpponent
    rw [if_neg (by simp [hwne])]
    rw [if_neg hne]
    rw [if_pos ⟨htruthy, hskill⟩]
    rw [hb]
    rfl
  · intro hskill haggr
    unfold LearningCoordinator.adjustDecisionForOpponent
    rw [if_neg (by simp [hwne])]
    rw [if_neg hne]
    rw [if_neg (by intro hc; exact hskill hc.2)]
    rw [if_pos haggr]
    rw [htruthy]
    simp [hb]

/-- A known opponent with aggression score 0.8 (above the 0.7 threshold)
and default skill 0.5. -/
def aggressiveOpponentProfile : OpponentProfile :=
  { createNewProfile "aggro" 0 with
    stats := { (createNewProfile "aggro" 0).stats with
      aggressionScore := 8 / 10 } }

/-- Witness for `adjustDecisionForOpponent_amended` at its two concrete
scenarios: a weak opponent scales 90 up to `min(108, 100)`, and an
aggressive skilled opponent leaves the 90-chip wager in place. -/
theorem adjustDecisionForOpponent_amended_witness :
    (LearningCoordinator.adjustDecisionForOpponent true
        [("weak", weakOpponentProfile)] decision90 ["weak"]).betSize
      = some (min ((90 : ℚ) * (12 / 10)) 100)
    ∧ (LearningCoordinator.adjustDecisionForOpponent true
        [("aggro", aggressiveOpponentProfile)] decision90 ["aggro"]).betSize
      = some 90 :=
  ⟨(adjustDecisionForOpponent_amended [("weak", weakOpponentProfile)]
      decision90 ["weak"] 90 rfl (by norm_num) (by decide)).1
    (by norm_num [weakOpponentProfile, createNewProfile, List.lookup,
      List.filterMap_cons, beq_self_eq_true]),
   (adjustDecisionForOpponent_amended [("aggro", aggressiveOpponentProfile)]
      decision90 ["aggro"] 90 rfl (by norm_num) (by decide)).2
    (by norm_num [aggressiveOpponentProfile, createNewProfile, List.lookup,
      List.filterMap_cons, beq_self_eq_true])
    (by norm_num [aggressiveOpponentProfile, createNewProfile, List.lookup,
      List.filterMap_cons, beq_self_eq_true])⟩

end Blackjack
